import Mathlib

/-!
Verification development for the retail-data-analysis repository.

The repository has two source files:
* `database.py` — loads three raw CSV collections, cleans them (date
  coercion, null repair on Location, first-wins duplicate-key removal,
  price reconciliation against the product inventory) and writes them
  to a SQLite store (`CREATE TABLE IF NOT EXISTS` followed by
  `DataFrame.to_sql(..., if_exists=replace)`).
* `dashboard_app.py` — read-only aggregate queries over that store,
  including the monthly sales-trend query and the RFM segmentation
  query (NTILE(5) quintile scores and a CASE ladder of segment rules).

This file gives a shallow embedding of those operations and proves or
refutes the frozen claims about them.  Machine floats are modelled as
`Option ℚ` (`none` plays the role of pandas NaN / SQL NULL, which is
what the cleaning code can actually produce); calendar dates are a
`CalDate` structure; the SQLite store is an association list of named
tables.
-/

/-- Calendar date (year, month, day), the result of `pd.to_datetime`. -/
structure CalDate where
  year : Nat
  month : Nat
  day : Nat
deriving DecidableEq, Repr

/-- Two-digit zero padding, as used by `strftime` for months and days. -/
def pad2 (n : Nat) : String :=
  if n < 10 then "0" ++ toString n else toString n

/-- ISO-8601 rendering of a date, modelling `dt.strftime(%Y-%m-%d)`
(years in this data set are four-digit, so the year needs no padding). -/
def isoOfDate (d : CalDate) : String :=
  toString d.year ++ "-" ++ pad2 d.month ++ "-" ++ pad2 d.day

/-- Model of `strptime` with format `%d/%m/%y`: day/month/two-digit
year, where 00–68 map to 2000–2068 and 69–99 map to 1969–1999.  An
unparseable value yields `none`, which the pipeline treats as fatal
(the script exits before touching the store). -/
def parseDMY (s : String) : Option CalDate :=
  match s.splitOn "/" with
  | [ds, ms, ys] =>
    match ds.toNat?, ms.toNat?, ys.toNat? with
    | some d, some m, some y =>
      if 1 ≤ d ∧ d ≤ 31 ∧ 1 ≤ m ∧ m ≤ 12 ∧ y ≤ 99 then
        some ⟨if y ≤ 68 then 2000 + y else 1900 + y, m, d⟩
      else none
    | _, _, _ => none
  | _ => none

/-- Raw customer row as loaded by `pd.read_csv`; a missing Location
cell is `none` (pandas NaN). -/
structure RawCustomer where
  cid : Int
  age : Int
  gender : String
  location : Option String
  joinDateRaw : String
deriving DecidableEq, Repr

/-- Customer row after `JoinDate` has been coerced to a date. -/
structure CustomerRow where
  cid : Int
  age : Int
  gender : String
  location : Option String
  joinDate : CalDate
deriving DecidableEq, Repr

/-- Product inventory row (`product_inventory` has no date column). -/
structure ProductRow where
  pid : Int
  name : String
  category : String
  stock : Int
  price : ℚ
deriving DecidableEq, Repr

/-- Raw sales row as loaded by `pd.read_csv`. -/
structure RawSale where
  tid : Int
  cid : Int
  pid : Int
  qty : Int
  dateRaw : String
  price : Option ℚ
deriving DecidableEq, Repr

/-- Sales row after `TransactionDate` has been coerced to a date.
`price` stays `Option ℚ` because the reconciliation step can write
NaN into it. -/
structure SaleRow where
  tid : Int
  cid : Int
  pid : Int
  qty : Int
  date : CalDate
  price : Option ℚ
deriving DecidableEq, Repr

/-- Worker for first-wins duplicate removal: a row is kept exactly
when its key has not been seen in an earlier row.  This is
`DataFrame.drop_duplicates(subset=[key])` with the default
`keep=first`. -/
def dropDupFirstAux {α β : Type} [DecidableEq β] (key : α → β) :
    List α → List β → List α
  | [], _ => []
  | x :: xs, seen =>
    if key x ∈ seen then dropDupFirstAux key xs seen
    else x :: dropDupFirstAux key xs (key x :: seen)

/-- First-wins duplicate-key removal over a whole collection. -/
def dropDupFirst {α β : Type} [DecidableEq β] (key : α → β) (l : List α) : List α :=
  dropDupFirstAux key l []

/-- Location repair applied to one customer row: `fillna(Unknown)`
replaces a null Location and leaves every non-null Location alone. -/
def fillLocationOne (c : CustomerRow) : CustomerRow :=
  match c.location with
  | none => { c with location := some "Unknown" }
  | some _ => c

/-- Location repair over the whole customer collection, modelling
`df.fillna(Unknown, inplace=True)` on the Location column. -/
def fillLocation (l : List CustomerRow) : List CustomerRow :=
  l.map fillLocationOne

/-- Blank-after-trimming test on a string (every character is
whitespace, so trimming leaves the empty string). -/
def isBlank (s : String) : Bool :=
  s.toList.all Char.isWhitespace

/-- Pandas element-wise `!=` between two float cells where `none` is
NaN: any comparison involving NaN is a mismatch. -/
def pandasNe (a b : Option ℚ) : Bool :=
  match a, b with
  | some x, some y => decide (x ≠ y)
  | _, _ => true

/-- Price reconciliation, modelling the left merge of the sales frame
with `product_inventory[[ProductID, Price]]` followed by
`df_sales_cleaned.loc[mask, Price] = Price_inventory` where `mask` is
`Price_transaction != Price_inventory`.  A transaction whose ProductID
has no product record gets `Price_inventory = NaN`, the mask is true
for it, and its price is overwritten with NaN (`none`). -/
def reconcile (ps : List ProductRow) (ss : List SaleRow) : List SaleRow :=
  ss.map fun s =>
    let pinv : Option ℚ := (ps.find? fun p => decide (p.pid = s.pid)).map ProductRow.price
    if pandasNe s.price pinv then { s with price := pinv } else s

/-- Customer cleaning in source order: date coercion (fatal on
failure), Location null repair, first-wins dedup on CustomerID. -/
def cleanCustomers (raw : List RawCustomer) : Option (List CustomerRow) := do
  let parsed ← raw.mapM fun c =>
    (parseDMY c.joinDateRaw).map fun d =>
      CustomerRow.mk c.cid c.age c.gender c.location d
  pure (dropDupFirst CustomerRow.cid (fillLocation parsed))

/-- Product cleaning: first-wins dedup on ProductID. -/
def cleanProducts (raw : List ProductRow) : List ProductRow :=
  dropDupFirst ProductRow.pid raw

/-- Sales cleaning in source order: date coercion (fatal on failure)
followed by first-wins dedup on TransactionID.  Reconciliation is the
separate cross-collection step `reconcile`. -/
def cleanSales (raw : List RawSale) : Option (List SaleRow) := do
  let parsed ← raw.mapM fun s =>
    (parseDMY s.dateRaw).map fun d =>
      SaleRow.mk s.tid s.cid s.pid s.qty d s.price
  pure (dropDupFirst SaleRow.tid parsed)

/-- The whole in-memory cleaning stage of `database.py`: a `none`
anywhere models the script calling `exit()` before the store is
touched. -/
def cleanAll (rawC : List RawCustomer) (rawP : List ProductRow) (rawS : List RawSale) :
    Option (List CustomerRow × List ProductRow × List SaleRow) := do
  let cs ← cleanCustomers rawC
  let ps := cleanProducts rawP
  let ss ← cleanSales rawS
  pure (cs, ps, reconcile ps ss)

/-- A stored SQL cell. -/
inductive Cell where
  | int (n : Int)
  | real (q : ℚ)
  | text (s : String)
  | null
deriving DecidableEq, Repr

/-- A stored table: column names, the primary-key column if the table
declaration had one, and the rows. -/
structure Table where
  cols : List String
  pk : Option String
  rows : List (List Cell)
deriving DecidableEq, Repr

/-- The SQLite store: an association list of named tables. -/
abbrev Store : Type := List (String × Table)

/-- `CREATE TABLE IF NOT EXISTS`: a no-op when the name is taken,
otherwise appends an empty table with the declared schema. -/
def createIfNotExists (n : String) (cols : List String) (pk : Option String)
    (st : Store) : Store :=
  if st.any fun t => decide (t.1 = n) then st
  else st ++ [(n, ⟨cols, pk, []⟩)]

/-- `DataFrame.to_sql(name, conn, if_exists=replace, index=False)`:
drops any table of that name and creates a fresh one from the frame;
the fresh table carries no primary-key constraint. -/
def toSqlReplace (n : String) (cols : List String) (rows : List (List Cell))
    (st : Store) : Store :=
  (st.filter fun t => decide (t.1 ≠ n)) ++ [(n, ⟨cols, none, rows⟩)]

/-- Declared columns of `customer_profiles`. -/
def custCols : List String := ["CustomerID", "Age", "Gender", "Location", "JoinDate"]

/-- Declared columns of `product_inventory`. -/
def prodCols : List String := ["ProductID", "ProductName", "Category", "StockLevel", "Price"]

/-- Declared columns of `sales_transaction`. -/
def salesCols : List String :=
  ["TransactionID", "CustomerID", "ProductID", "QuantityPurchased", "TransactionDate", "Price"]

/-- Cell encoding of a cleaned customer row, with `JoinDate` rendered
as ISO text by the `strftime` step just before `to_sql`. -/
def custCells (c : CustomerRow) : List Cell :=
  [Cell.int c.cid, Cell.int c.age, Cell.text c.gender,
   (match c.location with | some s => Cell.text s | none => Cell.null),
   Cell.text (isoOfDate c.joinDate)]

/-- Cell encoding of a cleaned product row. -/
def prodCells (p : ProductRow) : List Cell :=
  [Cell.int p.pid, Cell.text p.name, Cell.text p.category,
   Cell.int p.stock, Cell.real p.price]

/-- Cell encoding of a cleaned sales row, with `TransactionDate`
rendered as ISO text; a NaN price is stored as NULL. -/
def saleCells (s : SaleRow) : List Cell :=
  [Cell.int s.tid, Cell.int s.cid, Cell.int s.pid, Cell.int s.qty,
   Cell.text (isoOfDate s.date),
   (match s.price with | some q => Cell.real q | none => Cell.null)]

/-- The store-writer sequence of `database.py`: three
`CREATE TABLE IF NOT EXISTS` statements (with primary keys in the
DDL), the date-to-ISO-string conversion, then three
`to_sql(if_exists=replace)` bulk loads. -/
def writeStore (cs : List CustomerRow) (ps : List ProductRow) (ss : List SaleRow)
    (st : Store) : Store :=
  let st1 := createIfNotExists "customer_profiles" custCols (some "CustomerID") st
  let st2 := createIfNotExists "product_inventory" prodCols (some "ProductID") st1
  let st3 := createIfNotExists "sales_transaction" salesCols (some "TransactionID") st2
  let st4 := toSqlReplace "customer_profiles" custCols (cs.map custCells) st3
  let st5 := toSqlReplace "product_inventory" prodCols (ps.map prodCells) st4
  toSqlReplace "sales_transaction" salesCols (ss.map saleCells) st5

/-- One full run of `database.py` against a prior store state: clean
everything in memory, then write; a fatal cleaning error leaves the
store untouched. -/
def runPipeline (rawC : List RawCustomer) (rawP : List ProductRow) (rawS : List RawSale)
    (st : Store) : Store :=
  match cleanAll rawC rawP rawS with
  | none => st
  | some (cs, ps, ss) => writeStore cs ps ss st

/-- Query-layer view of a `sales_transaction` row as the dashboard
reads it back (prices taken as numeric). -/
structure SRow where
  tid : Int
  cid : Int
  pid : Int
  qty : Int
  date : CalDate
  price : ℚ
deriving DecidableEq, Repr

/-- Result frame of `pd.read_sql`: ordered column names and rows.  The
bare `pd.DataFrame()` constructed on the error path is
`⟨[], []⟩`. -/
structure DataFrame where
  cols : List String
  rows : List (List Cell)
deriving DecidableEq, Repr

/-- `get_data_from_db`: on a successful fetch, `pd.read_sql` returns a
frame that carries the column names of the SELECT even when it matched
no rows; on any failure the handler reports the error to the UI and
returns the empty `pd.DataFrame()`. -/
def getDataFromDb (queryCols : List String) (fetch : Except String (List (List Cell))) :
    DataFrame :=
  match fetch with
  | Except.ok rows => ⟨queryCols, rows⟩
  | Except.error _ => ⟨[], []⟩

/-- Insert one element into a sorted list: the element goes in front
of the first position whose inhabitant it is `le`-related to, so ties
keep their original relative order. -/
def insertBy {α : Type} (le : α → α → Bool) (x : α) : List α → List α
  | [] => [x]
  | y :: ys => if le x y then x :: y :: ys else y :: insertBy le x ys

/-- Stable insertion sort, the model of SQL `ORDER BY` with ties left
in their incoming order. -/
def sortBy {α : Type} (le : α → α → Bool) : List α → List α
  | [] => []
  | x :: xs => insertBy le x (sortBy le xs)

/-- Year component of a stored ISO date as `STRFTIME(%Y, ...)` renders
it. -/
def yearString (d : CalDate) : String := toString d.year

/-- Revenue of a list of sales rows: `SUM(QuantityPurchased * Price)`. -/
def sumRevenue (rows : List SRow) : ℚ :=
  rows.foldl (fun acc r => acc + (r.qty : ℚ) * r.price) 0

/-- `COUNT(DISTINCT TransactionID)` over a list of sales rows. -/
def countDistinctTid (rows : List SRow) : Nat :=
  (dropDupFirst (fun x : Int => x) (rows.map SRow.tid)).length

/-- One output row of the monthly-trend aggregation. -/
structure MonthRow where
  period : Nat × Nat
  revenue : ℚ
  txCount : Nat
deriving DecidableEq, Repr

/-- Ascending order on `YYYY-MM` periods (`ORDER BY SalesPeriod`). -/
def periodLe (a b : MonthRow) : Bool :=
  decide (a.period.1 < b.period.1 ∨ (a.period.1 = b.period.1 ∧ a.period.2 ≤ b.period.2))

/-- The monthly aggregation of the sales-trend query: group rows by
calendar year-month of TransactionDate, sum revenue and count distinct
transactions per group, order ascending by period. -/
def monthlyAgg (rows : List SRow) : List MonthRow :=
  let periods := dropDupFirst (fun p : Nat × Nat => p)
    (rows.map fun r => (r.date.year, r.date.month))
  sortBy periodLe <| periods.map fun p =>
    let grp := rows.filter fun r => decide ((r.date.year, r.date.month) = p)
    ⟨p, sumRevenue grp, countDistinctTid grp⟩

/-- The `sales_trend` year-filter logic: when the selection is
non-empty and does not contain the `All Years` sentinel, the query is
restricted with `WHERE STRFTIME(%Y, TransactionDate) IN (selection)`;
when the selection is empty the function warns and returns without
running the query (`none`); otherwise (the sentinel is selected) the
query runs unfiltered. -/
def salesTrend (sel : List String) (sales : List SRow) : Option (List MonthRow) :=
  if sel ≠ [] ∧ "All Years" ∉ sel then
    some (monthlyAgg (sales.filter fun r => decide (yearString r.date ∈ sel)))
  else if sel = [] then none
  else some (monthlyAgg sales)

/-- Day number of a Gregorian calendar date (days since the civil
epoch 1970-01-01), the standard days-from-civil computation.  It
models `JULIANDAY` up to the constant offset, which cancels in the
recency difference the RFM query takes. -/
def daysFromCivil (dt : CalDate) : Int :=
  let y : Int := if dt.month ≤ 2 then (dt.year : Int) - 1 else (dt.year : Int)
  let era : Int := (if 0 ≤ y then y else y - 399) / 400
  let yoe : Int := y - era * 400
  let mp : Int := ((dt.month : Int) + 9) % 12
  let doy : Int := (153 * mp + 2) / 5 + (dt.day : Int) - 1
  let doe : Int := yoe * 365 + yoe / 4 - yoe / 100 + doy
  era * 146097 + doe - 719468

/-- Maximum of a list of integers, defaulting on the empty list (the
RFM query only takes maxima of non-empty groups). -/
def listMaxD : List Int → Int
  | [] => 0
  | x :: xs => xs.foldl max x

/-- First CTE of the RFM query: per CustomerID across
`sales_transaction`, recency in days against the global latest
transaction date, distinct-transaction frequency, and summed monetary
value. -/
structure CustRFM where
  cid : Int
  recency : Int
  frequency : Nat
  monetary : ℚ
deriving DecidableEq, Repr

/-- Computes the `CustomerRFM` CTE, grouping by CustomerID in
first-seen order. -/
def customerRFM (sales : List SRow) : List CustRFM :=
  let cids := dropDupFirst (fun x : Int => x) (sales.map SRow.cid)
  let maxAll := listMaxD (sales.map fun r => daysFromCivil r.date)
  cids.map fun c =>
    let mine := sales.filter fun r => decide (r.cid = c)
    { cid := c
      recency := maxAll - listMaxD (mine.map fun r => daysFromCivil r.date)
      frequency := countDistinctTid mine
      monetary := sumRevenue mine }

/-- `NTILE(5)` bucket of the row at 0-based sorted position `i` among
`n` rows: the first `n % 5` buckets take `n / 5 + 1` rows each and the
rest take `n / 5`. -/
def ntile5 (n i : Nat) : Nat :=
  let q := n / 5
  let r := n % 5
  if i < r * (q + 1) then i / (q + 1) + 1
  else r + (i - r * (q + 1)) / q + 1

/-- Position of row `p` in the population stably sorted by recency
descending: the number of rows that sort strictly before it (larger
recency, or equal recency and earlier original position). -/
def rankRec (xs : List (Nat × CustRFM)) (p : Nat × CustRFM) : Nat :=
  xs.countP fun q =>
    decide (p.2.recency < q.2.recency ∨ (q.2.recency = p.2.recency ∧ q.1 < p.1))

/-- Position of row `p` in the population stably sorted by frequency
ascending. -/
def rankFreq (xs : List (Nat × CustRFM)) (p : Nat × CustRFM) : Nat :=
  xs.countP fun q =>
    decide (q.2.frequency < p.2.frequency ∨ (q.2.frequency = p.2.frequency ∧ q.1 < p.1))

/-- Position of row `p` in the population stably sorted by monetary
value ascending. -/
def rankMon (xs : List (Nat × CustRFM)) (p : Nat × CustRFM) : Nat :=
  xs.countP fun q =>
    decide (q.2.monetary < p.2.monetary ∨ (q.2.monetary = p.2.monetary ∧ q.1 < p.1))

/-- Second CTE of the RFM query: the three `NTILE(5)` window scores. -/
structure ScoredRFM extends CustRFM where
  rScore : Nat
  fScore : Nat
  mScore : Nat
deriving DecidableEq, Repr

/-- Computes the `RFMScores` CTE: each customer gets the `NTILE(5)`
bucket of its position in the population ordered by recency
descending, frequency ascending and monetary value ascending, ties
broken by original position. -/
def scoreRFM (base : List CustRFM) : List ScoredRFM :=
  let e := base.enum
  e.map fun p =>
    { toCustRFM := p.2
      rScore := ntile5 base.length (rankRec e p)
      fScore := ntile5 base.length (rankFreq e p)
      mScore := ntile5 base.length (rankMon e p) }

/-- The CASE ladder of the RFM query, translated clause by clause. -/
def segmentCase (r f m : Nat) : String :=
  if r = 5 ∧ f = 5 ∧ m = 5 then "Champions"
  else if r = 5 ∧ 4 ≤ f then "Loyal Customers"
  else if 4 ≤ r ∧ f = 5 then "Loyal Customers"
  else if 4 ≤ r ∧ 4 ≤ f ∧ 4 ≤ m then "Potential Loyalists"
  else if r = 5 ∧ 3 ≤ f then "New Customers"
  else if 4 ≤ r ∧ 4 ≤ m then "Promising"
  else if r ≤ 2 ∧ f ≤ 2 ∧ m ≤ 2 then "Lost Customers"
  else if r ≤ 2 ∧ 3 ≤ f then "At Risk"
  else if r ≤ 2 ∧ 3 ≤ m then "Can\x27t Lose Them"
  else if f = 5 ∧ m = 5 then "Best Customers"
  else "Other Segment"

/-- The segment rules as an ordered rule list (condition, label), the
way the specification enumerates them; the eleventh rule is the
default of `firstMatch`. -/
def segmentRules : List ((Nat × Nat × Nat → Bool) × String) :=
  [(fun p => decide (p.1 = 5 ∧ p.2.1 = 5 ∧ p.2.2 = 5), "Champions"),
   (fun p => decide (p.1 = 5 ∧ 4 ≤ p.2.1), "Loyal Customers"),
   (fun p => decide (4 ≤ p.1 ∧ p.2.1 = 5), "Loyal Customers"),
   (fun p => decide (4 ≤ p.1 ∧ 4 ≤ p.2.1 ∧ 4 ≤ p.2.2), "Potential Loyalists"),
   (fun p => decide (p.1 = 5 ∧ 3 ≤ p.2.1), "New Customers"),
   (fun p => decide (4 ≤ p.1 ∧ 4 ≤ p.2.2), "Promising"),
   (fun p => decide (p.1 ≤ 2 ∧ p.2.1 ≤ 2 ∧ p.2.2 ≤ 2), "Lost Customers"),
   (fun p => decide (p.1 ≤ 2 ∧ 3 ≤ p.2.1), "At Risk"),
   (fun p => decide (p.1 ≤ 2 ∧ 3 ≤ p.2.2), "Can\x27t Lose Them"),
   (fun p => decide (p.2.1 = 5 ∧ p.2.2 = 5), "Best Customers")]

/-- First-match evaluation of an ordered rule list with a default
label, the reading of the claim that rules are evaluated in the listed
order and the first matching label is returned. -/
def firstMatch {α : Type} : List ((α → Bool) × String) → String → α → String
  | [], d, _ => d
  | (c, lab) :: rest, d, x => if c x then lab else firstMatch rest d x

/-- The labels enumerated by the eleven rules, in rule order. -/
def elevenSegmentLabels : List String :=
  ["Champions", "Loyal Customers", "Loyal Customers", "Potential Loyalists",
   "New Customers", "Promising", "Lost Customers", "At Risk",
   "Can\x27t Lose Them", "Best Customers", "Other Segment"]

/-- Final output row of the RFM query. -/
structure SegRFM extends ScoredRFM where
  rfmString : String
  segment : String
deriving DecidableEq, Repr

/-- The full RFM query result: score every transacting customer,
attach the concatenated score string and the CASE segment, and order
by monetary value descending. -/
def rfmResult (sales : List SRow) : List SegRFM :=
  sortBy (fun a b => decide (b.monetary ≤ a.monetary)) <|
    (scoreRFM (customerRFM sales)).map fun x =>
      { toScoredRFM := x
        rfmString := toString x.rScore ++ toString x.fScore ++ toString x.mScore
        segment := segmentCase x.rScore x.fScore x.mScore }

/-- Filtering the dedup output for one key value leaves exactly the
first input record with that key, provided the key was not already
seen. -/
theorem dropDupFirstAux_filter {α β : Type} [DecidableEq β] (key : α → β) (k : β) :
    ∀ (l : List α) (seen : List β),
      (dropDupFirstAux key l seen).filter (fun x => decide (key x = k)) =
        if k ∈ seen then [] else (l.find? fun x => decide (key x = k)).toList := by
  intro l
  induction l with
  | nil => intro seen; by_cases hk : k ∈ seen <;> simp [dropDupFirstAux, hk]
  | cons x xs ih =>
    intro seen
    simp only [dropDupFirstAux]
    by_cases hx : key x ∈ seen
    · rw [if_pos hx, ih]
      by_cases hk : k ∈ seen
      · simp [hk]
      · have hne : ¬ key x = k := fun h => hk (h ▸ hx)
        rw [if_neg hk, if_neg hk, List.find?_cons_of_neg _ (by simpa using hne)]
    · rw [if_neg hx]
      by_cases hxk : key x = k
      · have hk : k ∉ seen := fun h => hx (hxk ▸ h)
        rw [List.filter_cons_of_pos (by simpa using hxk), ih, if_pos (by simp [← hxk]),
          if_neg hk, List.find?_cons_of_pos _ (by simpa using hxk)]
        rfl
      · rw [List.filter_cons_of_neg (by simpa using hxk), ih,
          List.find?_cons_of_neg _ (by simpa using hxk)]
        by_cases hk : k ∈ seen
        · simp [hk]
        · have : k ∉ key x :: seen := by
            simp only [List.mem_cons]
            rintro (h | h)
            · exact hxk h.symm
            · exact hk h
          rw [if_neg this, if_neg hk]

/-- The keys of the dedup output are pairwise distinct and avoid the
seen set. -/
theorem dropDupFirstAux_keys_nodup {α β : Type} [DecidableEq β] (key : α → β) :
    ∀ (l : List α) (seen : List β),
      ((dropDupFirstAux key l seen).map key).Nodup ∧
        ∀ k ∈ (dropDupFirstAux key l seen).map key, k ∉ seen := by
  intro l
  induction l with
  | nil => intro seen; simp [dropDupFirstAux]
  | cons x xs ih =>
    intro seen
    simp only [dropDupFirstAux]
    by_cases hx : key x ∈ seen
    · rw [if_pos hx]; exact ih seen
    · rw [if_neg hx]
      obtain ⟨ihnd, ihfresh⟩ := ih (key x :: seen)
      refine ⟨?_, ?_⟩
      · simp only [List.map_cons, List.nodup_cons]
        refine ⟨fun hmem => ?_, ihnd⟩
        exact (ihfresh _ hmem) (by simp)
      · intro k hk
        simp only [List.map_cons, List.mem_cons] at hk
        rcases hk with rfl | hk
        · exact hx
        · have := ihfresh _ hk
          simp only [List.mem_cons] at this
          exact fun h => this (Or.inr h)

/-- A key value occurs among the dedup output keys exactly when it
occurs among the input keys and was not already seen. -/
theorem dropDupFirstAux_mem_keys {α β : Type} [DecidableEq β] (key : α → β) (k : β) :
    ∀ (l : List α) (seen : List β),
      (k ∈ (dropDupFirstAux key l seen).map key) ↔ (k ∈ l.map key ∧ k ∉ seen) := by
  intro l
  induction l with
  | nil => intro seen; simp [dropDupFirstAux]
  | cons x xs ih =>
    intro seen
    simp only [dropDupFirstAux]
    by_cases hx : key x ∈ seen
    · rw [if_pos hx, ih]
      simp only [List.map_cons, List.mem_cons]
      constructor
      · rintro ⟨h, hs⟩; exact ⟨Or.inr h, hs⟩
      · rintro ⟨h | h, hs⟩
        · exact absurd (h ▸ hx) hs
        · exact ⟨h, hs⟩
    · rw [if_neg hx]
      simp only [List.map_cons, List.mem_cons, ih, List.mem_cons]
      constructor
      · rintro (rfl | ⟨h, hs⟩)
        · exact ⟨Or.inl rfl, hx⟩
        · exact ⟨Or.inr h, fun hh => hs (Or.inr hh)⟩
      · rintro ⟨rfl | h, hs⟩
        · exact Or.inl rfl
        · by_cases hkx : k = key x
          · exact Or.inl hkx
          · refine Or.inr ⟨h, fun hh => ?_⟩
            rcases hh with h1 | h1
            · exact hkx h1
            · exact hs h1

/-- Top-level form of the filter characterisation: dedup keeps exactly
the first record per key value, in original order. -/
theorem dropDupFirst_filter {α β : Type} [DecidableEq β] (key : α → β) (k : β) (l : List α) :
    (dropDupFirst key l).filter (fun x => decide (key x = k)) =
      (l.find? fun x => decide (key x = k)).toList := by
  rw [dropDupFirst, dropDupFirstAux_filter]
  simp

/-- Top-level form of key uniqueness after dedup. -/
theorem dropDupFirst_keys_nodup {α β : Type} [DecidableEq β] (key : α → β) (l : List α) :
    ((dropDupFirst key l).map key).Nodup :=
  (dropDupFirstAux_keys_nodup key l []).1

/-- Top-level form of key preservation: dedup neither invents nor
loses key values. -/
theorem dropDupFirst_mem_keys {α β : Type} [DecidableEq β] (key : α → β) (k : β) (l : List α) :
    k ∈ (dropDupFirst key l).map key ↔ k ∈ l.map key := by
  rw [dropDupFirst, dropDupFirstAux_mem_keys]
  simp

/-- Inserting into a list is a permutation of consing. -/
theorem insertBy_perm {α : Type} (le : α → α → Bool) (x : α) (l : List α) :
    (insertBy le x l).Perm (x :: l) := by
  induction l with
  | nil => simp [insertBy]
  | cons y ys ih =>
    simp only [insertBy]
    split
    · exact List.Perm.refl _
    · exact List.Perm.trans (ih.cons y) (List.Perm.swap x y ys)

/-- Stable insertion sort permutes its input. -/
theorem sortBy_perm {α : Type} (le : α → α → Bool) (l : List α) :
    (sortBy le l).Perm l := by
  induction l with
  | nil => simp [sortBy]
  | cons x xs ih =>
    exact List.Perm.trans (insertBy_perm le x (sortBy le xs)) (ih.cons x)

/-- First-match evaluation always lands on a listed label or the
default. -/
theorem firstMatch_mem {α : Type} (rules : List ((α → Bool) × String)) (d : String) (x : α) :
    firstMatch rules d x ∈ rules.map Prod.snd ++ [d] := by
  induction rules with
  | nil => simp [firstMatch]
  | cons r rest ih =>
    obtain ⟨c, lab⟩ := r
    simp only [firstMatch]
    split
    · simp
    · simp only [List.map_cons, List.cons_append, List.mem_cons]
      exact Or.inr ih

/-- The CASE ladder equals first-match evaluation of the ordered rule
list. -/
theorem segmentCase_eq_firstMatch (r f m : Nat) :
    segmentCase r f m = firstMatch segmentRules "Other Segment" (r, f, m) := by
  simp only [segmentCase, segmentRules, firstMatch, decide_eq_true_eq]

/-- Every segment the CASE ladder can produce is one of the eleven
enumerated labels. -/
theorem segmentCase_mem_labels (r f m : Nat) :
    segmentCase r f m ∈ elevenSegmentLabels := by
  have h := firstMatch_mem segmentRules "Other Segment" (r, f, m)
  have e : segmentRules.map Prod.snd ++ ["Other Segment"] = elevenSegmentLabels := by rfl
  rw [segmentCase_eq_firstMatch]
  rw [← e]
  exact h

/-- A list that contains an element failing the predicate has strictly
fewer predicate hits than elements. -/
theorem countP_lt_length_of_mem {α : Type} {l : List α} {p : α → Bool} {x : α}
    (hx : x ∈ l) (hpx : p x = false) : l.countP p < l.length := by
  rcases Nat.lt_or_ge (l.countP p) l.length with h | h
  · exact h
  · have heq : l.countP p = l.length := le_antisymm (List.countP_le_length p) h
    have := List.countP_eq_length.mp heq x hx
    rw [hpx] at this
    cases this

/-- An `NTILE(5)` bucket of a valid sorted position is between 1 and
5. -/
theorem ntile5_bounds (n i : Nat) (h : i < n) : 1 ≤ ntile5 n i ∧ ntile5 n i ≤ 5 := by
  unfold ntile5
  have hn : 5 * (n / 5) + n % 5 = n := Nat.div_add_mod n 5
  have hr : n % 5 < 5 := Nat.mod_lt n (by norm_num)
  by_cases hbr : i < n % 5 * (n / 5 + 1)
  · rw [if_pos hbr]
    have hdiv : i / (n / 5 + 1) < n % 5 :=
      (Nat.div_lt_iff_lt_mul (Nat.succ_pos (n / 5))).mpr hbr
    generalize i / (n / 5 + 1) = e at hdiv ⊢
    omega
  · rw [if_neg hbr]
    push_neg at hbr
    rw [Nat.mul_succ] at hbr
    have hq1 : 1 ≤ n / 5 := by
      rcases Nat.eq_zero_or_pos (n / 5) with h0 | h0
      · rw [h0] at hbr hn
        simp at hbr hn
        omega
      · exact h0
    have hrq : n % 5 * (n / 5) ≤ 5 * (n / 5) :=
      Nat.mul_le_mul_right (n / 5) (le_of_lt hr)
    have hxlt : i - n % 5 * (n / 5 + 1) < (5 - n % 5) * (n / 5) := by
      rw [Nat.sub_mul, Nat.mul_succ]
      omega
    have hdq : (i - n % 5 * (n / 5 + 1)) / (n / 5) < 5 - n % 5 :=
      (Nat.div_lt_iff_lt_mul (by omega)).mpr hxlt
    generalize (i - n % 5 * (n / 5 + 1)) / (n / 5) = e at hdq ⊢
    omega

/-- A row never counts itself among the rows sorting strictly before
it by recency, so its rank is a valid position. -/
theorem rankRec_lt_length (e : List (Nat × CustRFM)) (p : Nat × CustRFM) (hp : p ∈ e) :
    rankRec e p < e.length := by
  apply countP_lt_length_of_mem hp
  simp [lt_irrefl]

/-- A row never counts itself among the rows sorting strictly before
it by frequency. -/
theorem rankFreq_lt_length (e : List (Nat × CustRFM)) (p : Nat × CustRFM) (hp : p ∈ e) :
    rankFreq e p < e.length := by
  apply countP_lt_length_of_mem hp
  simp [lt_irrefl]

/-- A row never counts itself among the rows sorting strictly before
it by monetary value. -/
theorem rankMon_lt_length (e : List (Nat × CustRFM)) (p : Nat × CustRFM) (hp : p ∈ e) :
    rankMon e p < e.length := by
  apply countP_lt_length_of_mem hp
  simp [lt_irrefl]

/-- Every scored row carries the three window scores inside 1..5. -/
theorem scoreRFM_mem_bounds (base : List CustRFM) (x : ScoredRFM) (hx : x ∈ scoreRFM base) :
    (1 ≤ x.rScore ∧ x.rScore ≤ 5) ∧ (1 ≤ x.fScore ∧ x.fScore ≤ 5) ∧
      (1 ≤ x.mScore ∧ x.mScore ≤ 5) := by
  simp only [scoreRFM, List.mem_map] at hx
  obtain ⟨p, hp, rfl⟩ := hx
  have hlen : base.enum.length = base.length := List.enum_length
  exact ⟨ntile5_bounds _ _ (hlen ▸ rankRec_lt_length base.enum p hp),
    ntile5_bounds _ _ (hlen ▸ rankFreq_lt_length base.enum p hp),
    ntile5_bounds _ _ (hlen ▸ rankMon_lt_length base.enum p hp)⟩

/-- The CustomerID column of the first CTE is exactly the deduped
CustomerID column of the sales table. -/
theorem customerRFM_map_cid (sales : List SRow) :
    (customerRFM sales).map CustRFM.cid =
      dropDupFirst (fun x : Int => x) (sales.map SRow.cid) := by
  unfold customerRFM
  rw [List.map_map]
  exact List.map_id' _

/-- Scoring preserves the CustomerID column. -/
theorem scoreRFM_map_cid (base : List CustRFM) :
    (scoreRFM base).map (fun x => x.toCustRFM.cid) = base.map CustRFM.cid := by
  unfold scoreRFM
  conv_rhs => rw [← List.enum_map_snd base]
  rw [List.map_map, List.map_map]
  rfl

/-- Dedup of a plain integer list keeps no duplicates. -/
theorem dropDupFirst_id_nodup (l : List Int) :
    (dropDupFirst (fun x : Int => x) l).Nodup := by
  have h := dropDupFirst_keys_nodup (fun x : Int => x) l
  simpa using h

/-- Dedup of a plain integer list keeps exactly the values of the
input. -/
theorem dropDupFirst_id_mem (k : Int) (l : List Int) :
    k ∈ dropDupFirst (fun x : Int => x) l ↔ k ∈ l := by
  have h := dropDupFirst_mem_keys (fun x : Int => x) k l
  simpa using h

/-- The CustomerID column of the full RFM result is a permutation of
the deduped CustomerID column of the sales table. -/
theorem rfmResult_map_cid_perm (sales : List SRow) :
    ((rfmResult sales).map (fun r => r.cid)).Perm
      (dropDupFirst (fun x : Int => x) (sales.map SRow.cid)) := by
  unfold rfmResult
  have h1 := (sortBy_perm (fun a b : SegRFM => decide (b.monetary ≤ a.monetary))
    ((scoreRFM (customerRFM sales)).map fun x =>
      { toScoredRFM := x
        rfmString := toString x.rScore ++ toString x.fScore ++ toString x.mScore
        segment := segmentCase x.rScore x.fScore x.mScore })).map (fun r : SegRFM => r.cid)
  refine h1.trans ?_
  rw [List.map_map]
  rw [show ((fun r : SegRFM => r.cid) ∘ fun x : ScoredRFM =>
      ({ toScoredRFM := x
         rfmString := toString x.rScore ++ toString x.fScore ++ toString x.mScore
         segment := segmentCase x.rScore x.fScore x.mScore } : SegRFM)) =
      (fun x : ScoredRFM => x.toCustRFM.cid) from rfl]
  rw [scoreRFM_map_cid, customerRFM_map_cid]

/-- Predicate keeping the tables the pipeline writer does not own
(combined form of the three name filters of the replace steps). -/
def notPipelineTable (t : String × Table) : Bool :=
  !decide (t.1 = "sales_transaction") &&
    (!decide (t.1 = "product_inventory") && !decide (t.1 = "customer_profiles"))

/-- A filter that rejects a table name commutes through the
conditional creation of a table with that name. -/
theorem filter_createIfNotExists (p : String × Table → Bool) (n : String)
    (cols : List String) (pk : Option String) (st : Store)
    (hp : ∀ tbl : Table, p (n, tbl) = false) :
    (createIfNotExists n cols pk st).filter p = st.filter p := by
  unfold createIfNotExists
  split
  · rfl
  · rw [List.filter_append]
    simp [hp]

/-- Closed form of one writer run: whatever tables the prior store
held under other names survive, and the three pipeline tables are
rebuilt from the cleaned collections with no primary key. -/
theorem writeStore_shape (cs : List CustomerRow) (ps : List ProductRow)
    (ss : List SaleRow) (st : Store) :
    writeStore cs ps ss st = st.filter notPipelineTable ++
      [("customer_profiles", ⟨custCols, none, cs.map custCells⟩),
       ("product_inventory", ⟨prodCols, none, ps.map prodCells⟩),
       ("sales_transaction", ⟨salesCols, none, ss.map saleCells⟩)] := by
  unfold writeStore toSqlReplace
  simp only [List.filter_append, List.filter_filter]
  rw [filter_createIfNotExists _ "sales_transaction" _ _ _ (fun tbl => by simp),
    filter_createIfNotExists _ "product_inventory" _ _ _ (fun tbl => by simp),
    filter_createIfNotExists _ "customer_profiles" _ _ _ (fun tbl => by simp)]
  rw [List.filter_congr (fun a _ => show _ = notPipelineTable a by
    simp [notPipelineTable, decide_not])]
  simp

/-- Writing the same cleaned collections a second time reproduces the
same store. -/
theorem writeStore_idem (cs : List CustomerRow) (ps : List ProductRow)
    (ss : List SaleRow) (st : Store) :
    writeStore cs ps ss (writeStore cs ps ss st) = writeStore cs ps ss st := by
  rw [writeStore_shape, writeStore_shape]
  rw [List.filter_append, List.filter_filter]
  rw [List.filter_congr (fun a _ => show _ = notPipelineTable a from Bool.and_self _)]
  simp [notPipelineTable]

/-- Reconciliation rewrites prices only, leaving the TransactionID
column untouched. -/
theorem reconcile_map_tid (ps : List ProductRow) (ss : List SaleRow) :
    (reconcile ps ss).map SaleRow.tid = ss.map SaleRow.tid := by
  unfold reconcile
  rw [List.map_map]
  induction ss with
  | nil => rfl
  | cons s rest ih =>
    simp only [List.map_cons, ih]
    congr 1
    by_cases h : pandasNe s.price
        ((List.find? (fun p => decide (p.pid = s.pid)) ps).map ProductRow.price) = true
    · simp [Function.comp, h]
    · simp only [Bool.not_eq_true] at h
      simp [Function.comp, h]

/-- Pointwise description of the Location repair: a null Location
becomes the sentinel, everything else is copied unchanged. -/
theorem fillLocationOne_eq (c : CustomerRow) :
    fillLocationOne c = { c with location := some (c.location.getD "Unknown") } := by
  obtain ⟨cid, age, g, loc, jd⟩ := c
  cases loc <;> rfl

/-- The Location of a repaired row is never null. -/
theorem fillLocationOne_ne_none (c : CustomerRow) :
    (fillLocationOne c).location ≠ none := by
  obtain ⟨cid, age, g, loc, jd⟩ := c
  cases loc <;> simp [fillLocationOne]

/-- A sales transaction whose ProductID (99) has no product record. -/
def orphanSale : SaleRow := ⟨1, 1, 99, 2, ⟨2023, 1, 1⟩, some 10⟩

/-- C1: the claim says a transaction whose ProductID has no matching
product record keeps its pre-reconciliation price.  Evaluating the
reconciliation step of the code at such a transaction shows the price
is instead overwritten with NaN (`none`): the pandas mask
`Price_transaction != Price_inventory` is true whenever the merged
inventory price is NaN, so the `.loc` assignment copies the NaN into
the sales frame. -/
theorem reconcile_nulls_unmatched_price :
    (reconcile [] [orphanSale]).map SaleRow.price = [none] ∧
      orphanSale.price = some 10 := by
  constructor <;> rfl

/-- Demonstration customer row for the store-writer run. -/
def c2Customer : CustomerRow := ⟨1, 30, "F", some "Delhi", ⟨2020, 1, 5⟩⟩

/-- Demonstration product row for the store-writer run. -/
def c2Product : ProductRow := ⟨1, "Pen", "Stationery", 5, 3⟩

/-- Demonstration sales row for the store-writer run. -/
def c2Sale : SaleRow := ⟨1, 1, 1, 2, ⟨2023, 2, 14⟩, some 3⟩

/-- C2: after a store write on a fresh store the three tables exist
with the declared columns and ISO-8601 date text, but every table has
`pk = none`: the `to_sql(if_exists=replace)` calls drop the tables the
DDL created with primary keys and recreate them from the data frames
without any primary-key constraint, contradicting the primary-key part
of the claim. -/
theorem store_write_drops_primary_keys :
    writeStore [c2Customer] [c2Product] [c2Sale] [] =
      [("customer_profiles", ⟨custCols, none,
          [[Cell.int 1, Cell.int 30, Cell.text "F", Cell.text "Delhi",
            Cell.text "2020-01-05"]]⟩),
       ("product_inventory", ⟨prodCols, none,
          [[Cell.int 1, Cell.text "Pen", Cell.text "Stationery", Cell.int 5,
            Cell.real 3]]⟩),
       ("sales_transaction", ⟨salesCols, none,
          [[Cell.int 1, Cell.int 1, Cell.int 1, Cell.int 2,
            Cell.text "2023-02-14", Cell.real 3]]⟩)] := by
  rfl

/-- A customer row whose Location is a whitespace-only string. -/
def blankLocCustomer : CustomerRow := ⟨7, 40, "M", some " ", ⟨2020, 1, 5⟩⟩

/-- C3 counterexample: a Location that is blank after trimming (a
single space) passes through the cleaning step unchanged, so it is not
replaced by the sentinel, refuting the claim for non-null blank
values. -/
theorem location_blank_not_replaced :
    (fillLocation [blankLocCustomer]).map CustomerRow.location = [some " "] ∧
      isBlank " " = true ∧ some " " ≠ some "Unknown" := by
  refine ⟨rfl, rfl, by decide⟩

/-- C3 as amended: after the cleaning step every Location is non-null;
a null raw Location has been replaced by the sentinel string and every
non-null raw Location — including whitespace-only strings, which stay
blank after trimming — is unchanged. -/
theorem location_fill_amended :
    (∀ (l : List CustomerRow) (i : Nat),
        (fillLocation l)[i]? =
          (l[i]?).map fun c => { c with location := some (c.location.getD "Unknown") }) ∧
      ∀ (l : List CustomerRow), ∀ c ∈ fillLocation l, c.location ≠ none := by
  constructor
  · intro l i
    simp only [fillLocation, List.getElem?_map]
    cases h : l[i]? with
    | none => rfl
    | some c => simp [fillLocationOne_eq]
  · intro l c hc
    simp only [fillLocation, List.mem_map] at hc
    obtain ⟨a, _, rfl⟩ := hc
    exact fillLocationOne_ne_none a

/-- A customer row whose Location is null. -/
def nullLocCustomer : CustomerRow := ⟨8, 40, "M", none, ⟨2020, 1, 5⟩⟩

/-- Witness for the amended C3 statement at a concrete null-Location
row. -/
theorem location_fill_amended_witness :
    ({ nullLocCustomer with location := some "Unknown" } ∈ fillLocation [nullLocCustomer]) ∧
      ({ nullLocCustomer with location := some "Unknown" } : CustomerRow).location ≠ none :=
  ⟨by decide, location_fill_amended.2 [nullLocCustomer] _ (by decide)⟩

/-- C4: a successful query always reports the column names of its
SELECT, so an empty result set (zero rows under at least one column)
is never the same DataFrame value as the column-less empty frame the
error handler returns on a store-access failure. -/
theorem empty_result_distinct_from_failure
    (cols : List String) (rows : List (List Cell)) (cols2 : List String) (e : String)
    (h : cols ≠ []) :
    getDataFromDb cols (Except.ok rows) ≠ getDataFromDb cols2 (Except.error e) := by
  simp only [getDataFromDb]
  intro heq
  exact h (congrArg DataFrame.cols heq)

/-- Witness for C4 at the total-revenue query shape: one column, zero
rows versus an unreachable store. -/
theorem empty_result_distinct_from_failure_witness :
    (["TotalRevenue"] : List String) ≠ [] ∧
      getDataFromDb ["TotalRevenue"] (Except.ok []) ≠
        getDataFromDb ["TotalRevenue"] (Except.error "store unreachable") :=
  ⟨by decide, empty_result_distinct_from_failure _ _ _ _ (by decide)⟩

/-- C5: the CASE ladder is first-match evaluation of the eleven rules
in their listed order; the triple (5,5,5) lands on Champions, even
though the tenth rule (Best Customers) also matches it, as the last
conjunct shows by running the rule list starting at rule ten. -/
theorem segment_rules_first_match_precedence :
    (∀ r f m : Nat, segmentCase r f m = firstMatch segmentRules "Other Segment" (r, f, m)) ∧
      segmentCase 5 5 5 = "Champions" ∧
      firstMatch (segmentRules.drop 9) "Other Segment" (5, 5, 5) = "Best Customers" :=
  ⟨segmentCase_eq_firstMatch, rfl, rfl⟩

/-- C6: every row of the RFM result carries NTILE scores in 1..5 for
recency, frequency and monetary value, and a segment drawn from the
eleven enumerated labels. -/
theorem rfm_scores_in_range_and_label_enumerated
    (sales : List SRow) (row : SegRFM) (h : row ∈ rfmResult sales) :
    ((1 ≤ row.rScore ∧ row.rScore ≤ 5) ∧ (1 ≤ row.fScore ∧ row.fScore ≤ 5) ∧
      (1 ≤ row.mScore ∧ row.mScore ≤ 5)) ∧ row.segment ∈ elevenSegmentLabels := by
  unfold rfmResult at h
  replace h := (sortBy_perm _ _).mem_iff.mp h
  simp only [List.mem_map] at h
  obtain ⟨x, hx, rfl⟩ := h
  exact ⟨scoreRFM_mem_bounds _ x hx, segmentCase_mem_labels _ _ _⟩

/-- Single-transaction sales table for the RFM witness. -/
def rfmDemoSale : SRow := ⟨1, 42, 7, 2, ⟨2023, 5, 1⟩, 3⟩

/-- The RFM output row the demo sales table produces. -/
def rfmDemoRow : SegRFM := ⟨⟨⟨42, 0, 1, 6⟩, 1, 1, 1⟩, "111", "Lost Customers"⟩

/-- Witness for C6 at a concrete one-transaction store. -/
theorem rfm_scores_in_range_witness :
    (rfmDemoRow ∈ rfmResult [rfmDemoSale]) ∧
      (((1 ≤ rfmDemoRow.rScore ∧ rfmDemoRow.rScore ≤ 5) ∧
        (1 ≤ rfmDemoRow.fScore ∧ rfmDemoRow.fScore ≤ 5) ∧
        (1 ≤ rfmDemoRow.mScore ∧ rfmDemoRow.mScore ≤ 5)) ∧
        rfmDemoRow.segment ∈ elevenSegmentLabels) := by
  have hres : rfmResult [rfmDemoSale] = [rfmDemoRow] := by
    simp [rfmResult, customerRFM, scoreRFM, rfmDemoSale, rfmDemoRow, dropDupFirst,
      dropDupFirstAux, listMaxD, sumRevenue, countDistinctTid, rankRec, rankFreq,
      rankMon, ntile5, sortBy, insertBy, segmentCase, List.enum, List.enumFrom,
      lt_irrefl]
    norm_num
    rfl
  have hmem : rfmDemoRow ∈ rfmResult [rfmDemoSale] := by
    rw [hres]; exact List.mem_singleton_self _
  exact ⟨hmem, rfm_scores_in_range_and_label_enumerated [rfmDemoSale] rfmDemoRow hmem⟩

/-- First raw row with TransactionID 7 (price 19.99). -/
def dupSaleA : SaleRow := ⟨7, 1, 1, 1, ⟨2023, 1, 1⟩, some (19.99 : ℚ)⟩

/-- Second raw row with TransactionID 7 (price 21.99). -/
def dupSaleB : SaleRow := ⟨7, 2, 2, 2, ⟨2023, 1, 2⟩, some (21.99 : ℚ)⟩

/-- C7: for each collection, deduplication keeps exactly the first
record per key value in original order (the filtered survivors for any
key are exactly `find?` of the input), the key columns are duplicate
free afterwards — for the sales table even after the price
reconciliation that precedes the store write — and the concrete
TransactionID-7 example keeps the 19.99 row. -/
theorem dedup_keeps_first_per_key :
    (∀ (l : List CustomerRow) (k : Int),
        (dropDupFirst CustomerRow.cid l).filter (fun x => decide (x.cid = k)) =
          (l.find? fun x => decide (x.cid = k)).toList) ∧
    (∀ (l : List ProductRow) (k : Int),
        (dropDupFirst ProductRow.pid l).filter (fun x => decide (x.pid = k)) =
          (l.find? fun x => decide (x.pid = k)).toList) ∧
    (∀ (l : List SaleRow) (k : Int),
        (dropDupFirst SaleRow.tid l).filter (fun x => decide (x.tid = k)) =
          (l.find? fun x => decide (x.tid = k)).toList) ∧
    (∀ l : List CustomerRow, ((dropDupFirst CustomerRow.cid l).map CustomerRow.cid).Nodup) ∧
    (∀ l : List ProductRow, ((dropDupFirst ProductRow.pid l).map ProductRow.pid).Nodup) ∧
    (∀ (ps : List ProductRow) (l : List SaleRow),
        ((reconcile ps (dropDupFirst SaleRow.tid l)).map SaleRow.tid).Nodup) ∧
    dropDupFirst SaleRow.tid [dupSaleA, dupSaleB] = [dupSaleA] := by
  refine ⟨fun l k => dropDupFirst_filter _ _ _,
    fun l k => dropDupFirst_filter _ _ _,
    fun l k => dropDupFirst_filter _ _ _,
    fun l => dropDupFirst_keys_nodup _ _,
    fun l => dropDupFirst_keys_nodup _ _,
    fun ps l => ?_, rfl⟩
  rw [reconcile_map_tid]
  exact dropDupFirst_keys_nodup _ _

/-- A sales row from 2020 for the trend counterexample. -/
def trendSale : SRow := ⟨1, 1, 1, 2, ⟨2020, 6, 15⟩, 3⟩

/-- C8 counterexample: invoked with the non-empty selection
containing only the sentinel string, the trend query runs unfiltered,
so its output is not the aggregation of the year-set-membership
filtered transactions (that filter would reject the 2020 row, since
its year string is not an element of the selection). -/
theorem sales_trend_all_years_not_membership_filtered :
    salesTrend ["All Years"] [trendSale] ≠
      some (monthlyAgg ([trendSale].filter fun r =>
        decide (yearString r.date ∈ (["All Years"] : List String)))) := by
  intro h
  have h2 : salesTrend ["All Years"] [trendSale] = some (monthlyAgg [trendSale]) := rfl
  rw [h2] at h
  have h3 : ([trendSale].filter fun r =>
      decide (yearString r.date ∈ (["All Years"] : List String))) = [] := rfl
  rw [h3] at h
  have h4 := Option.some.inj h
  have h5 := congrArg List.length h4
  rw [show (monthlyAgg [trendSale]).length = 1 from rfl] at h5
  simp [monthlyAgg, sortBy, dropDupFirst, dropDupFirstAux] at h5

/-- C8 as amended: an empty selection yields the no-selection signal
(no query runs); a non-empty selection without the sentinel filters by
year-set membership on the year component; a selection containing the
sentinel `All Years` runs the aggregation unfiltered. -/
theorem sales_trend_amended :
    (∀ sales : List SRow, salesTrend [] sales = none) ∧
    (∀ (sel : List String) (sales : List SRow), sel ≠ [] → "All Years" ∉ sel →
        salesTrend sel sales =
          some (monthlyAgg (sales.filter fun r => decide (yearString r.date ∈ sel)))) ∧
    (∀ (sel : List String) (sales : List SRow), "All Years" ∈ sel →
        salesTrend sel sales = some (monthlyAgg sales)) := by
  refine ⟨fun sales => rfl, fun sel sales h1 h2 => ?_, fun sel sales h => ?_⟩
  · rw [salesTrend, if_pos ⟨h1, h2⟩]
  · have hne : sel ≠ [] := by
      rintro rfl
      exact absurd h (List.not_mem_nil _)
    rw [salesTrend, if_neg (fun hc => hc.2 h), if_neg hne]

/-- Witness for the amended C8 statement: a concrete year selection
and a store with one matching transaction. -/
theorem sales_trend_amended_witness :
    ((["2020"] : List String) ≠ [] ∧ "All Years" ∉ (["2020"] : List String)) ∧
      salesTrend ["2020"] [trendSale] =
        some (monthlyAgg ([trendSale].filter fun r =>
          decide (yearString r.date ∈ (["2020"] : List String)))) :=
  ⟨⟨by decide, by decide⟩,
    sales_trend_amended.2.1 ["2020"] [trendSale] (by decide) (by decide)⟩

/-- C9: one full pipeline run is a deterministic function of the raw
input on the three pipeline tables and leaves every other table alone,
so running it a second time on identical input reproduces the store of
the first run exactly (logical-content identity of the persisted
store). -/
theorem pipeline_idempotent (rawC : List RawCustomer) (rawP : List ProductRow)
    (rawS : List RawSale) (st : Store) :
    runPipeline rawC rawP rawS (runPipeline rawC rawP rawS st) =
      runPipeline rawC rawP rawS st := by
  unfold runPipeline
  cases h : cleanAll rawC rawP rawS with
  | none => rfl
  | some t =>
    obtain ⟨cs, ps, ss⟩ := t
    exact writeStore_idem cs ps ss st

/-- C10: the RFM output has duplicate-free CustomerIDs, and a
CustomerID appears in it exactly when it appears in the sales table —
the computation reads only `sales_transaction`, so membership in
`customer_profiles` plays no role, and a customer with zero
transactions contributes no row. -/
theorem rfm_one_row_per_transacting_customer (sales : List SRow) :
    ((rfmResult sales).map (fun r => r.cid)).Nodup ∧
      ∀ c : Int, c ∈ (rfmResult sales).map (fun r => r.cid) ↔ c ∈ sales.map SRow.cid := by
  have hperm := rfmResult_map_cid_perm sales
  constructor
  · exact hperm.nodup_iff.mpr (dropDupFirst_id_nodup _)
  · intro c
    rw [hperm.mem_iff, dropDupFirst_id_mem]
